import Mathlib

/-!
Verification of the FSEOF-FS repository (files `fseof_fs.py` and
`fvseof/fvseof.py`) against its natural-language specification.

The two Python classes `FSEOF_FS` and `FVSEOF` orchestrate constrained
optimizations of a genome-scale metabolic model (a `cobra.Model`).  We
shallowly embed the model state and the deterministic parts of both classes.
External collaborators are abstracted:

* the LP solver (`cobra.flux_analysis.loopless.loopless_solution`) becomes a
  parameter of type `Model → Option FluxVec`, where `none` models the solver
  raising an exception and `some fl` models a returned solution with flux
  vector `fl`;
* flux aggregation results (sampling averages, FVA midpoints) become flux-map
  parameters, since the classification code consumes only those maps;
* `cobra.Model`'s context manager (`with self.model as model:`), whose
  `HistoryManager` records one undo entry per mutation and replays them
  LIFO on exit, is embedded by the `HistOp` undo log below;
* floats are embedded as `ℚ` (division by zero denotes `0` in `ℚ`).
-/

/-- A reaction of the metabolic model: id, display name, lower/upper flux
bounds, gene-reaction rule, and stoichiometry map over metabolite ids. -/
structure Rxn where
  id : String
  name : String
  lb : ℚ
  ub : ℚ
  grr : String
  mets : List (String × ℚ)
deriving DecidableEq, Repr

/-- The mutable model state the analyzers share: reaction list, metabolite id
list, and the current objective (a reaction id; cobra accepts a reaction id
for `model.objective`). -/
structure Model where
  reactions : List Rxn
  metabolites : List String
  objective : String
deriving DecidableEq, Repr

/-- The ids of the model's reactions, `[r.id for r in model.reactions]`. -/
def Model.reactionIds (m : Model) : List String :=
  m.reactions.map Rxn.id

/-- The ids of the model's metabolites. -/
def Model.metaboliteIds (m : Model) : List String :=
  m.metabolites

/-- Replace the first reaction whose id is `rid` (cobra ids are unique; this
mirrors `model.reactions.get_by_id(rid)` followed by a field assignment).
When no reaction matches, the model is unchanged. -/
def replaceFirst (f : Rxn → Rxn) (rid : String) : List Rxn → List Rxn
  | [] => []
  | r :: rs => if r.id = rid then f r :: rs else r :: replaceFirst f rid rs

/-- Current lower bound of reaction `rid` (`0` when absent). -/
def Model.lbOf (m : Model) (rid : String) : ℚ :=
  match m.reactions.find? (fun r => r.id = rid) with
  | some r => r.lb
  | none => 0

/-- Current upper bound of reaction `rid` (`0` when absent). -/
def Model.ubOf (m : Model) (rid : String) : ℚ :=
  match m.reactions.find? (fun r => r.id = rid) with
  | some r => r.ub
  | none => 0

/-- Set the lower bound of reaction `rid`. -/
def Model.setLB (m : Model) (rid : String) (v : ℚ) : Model :=
  { m with reactions := replaceFirst (fun r => { r with lb := v }) rid m.reactions }

/-- Set the upper bound of reaction `rid`. -/
def Model.setUB (m : Model) (rid : String) (v : ℚ) : Model :=
  { m with reactions := replaceFirst (fun r => { r with ub := v }) rid m.reactions }

/-- Set the objective to reaction `rid`. -/
def Model.setObjective (m : Model) (rid : String) : Model :=
  { m with objective := rid }

/-- Append a reaction, `model.add_reactions([rxn])`. -/
def Model.addReaction (m : Model) (rxn : Rxn) : Model :=
  { m with reactions := m.reactions ++ [rxn] }

/-- One entry of cobra's `HistoryManager` undo log: the stored reset
operation that restores the overwritten value. -/
inductive HistOp where
  | oldLB (rid : String) (v : ℚ)
  | oldUB (rid : String) (v : ℚ)
  | oldObjective (v : String)
deriving DecidableEq, Repr

/-- Replay one undo entry. -/
def HistOp.applyOp : HistOp → Model → Model
  | .oldLB rid v, m => m.setLB rid v
  | .oldUB rid v, m => m.setUB rid v
  | .oldObjective v, m => m.setObjective v

/-- Mutation that also records its undo entry (lower bound). -/
def Model.setLBOp (m : Model) (rid : String) (v : ℚ) : Model × HistOp :=
  (m.setLB rid v, .oldLB rid (m.lbOf rid))

/-- Mutation that also records its undo entry (upper bound). -/
def Model.setUBOp (m : Model) (rid : String) (v : ℚ) : Model × HistOp :=
  (m.setUB rid v, .oldUB rid (m.ubOf rid))

/-- Mutation that also records its undo entry (objective). -/
def Model.setObjectiveOp (m : Model) (rid : String) : Model × HistOp :=
  (m.setObjective rid, .oldObjective m.objective)

/-- A flux vector returned by a solve: reaction id to flux value. -/
abbrev FluxVec := String → ℚ

/-- The abstracted loopless LP solver.  `none` models
`loopless_solution` raising; `some fl` models a solution. -/
abbrev Solver := Model → Option FluxVec

/-!
Scoped probes.  Each `with self.model as model:` block in the source is
embedded as a function that performs its mutations through the `...Op`
primitives, runs the abstracted solver on the mutated model, and finally
replays the recorded undo entries in LIFO order — exactly what cobra's
`HistoryManager` does on `__exit__`, whether the block is left normally or
through a solver exception.  Each probe returns its result together with the
model as it stands after the block exits.
-/

/-- Lines 80–83 of `fseof_fs.py` / 76–79 of `fvseof.py`
(`calc_product_maximal_theoretical_yield`): set the objective to the sink
reaction, solve looplessly, read the sink flux.  `none` models the solver
raising (the exception propagates past the block). -/
def scopedYield (solver : Solver) (m : Model) (sinkId : String) :
    Option ℚ × Model :=
  let (m1, u1) := m.setObjectiveOp sinkId
  ((solver m1).map (fun fl => fl sinkId), u1.applyOp m1)

/-- Lines 94–97 of `fseof_fs.py` / 90–93 of `fvseof.py`
(`calc_maximal_biomass_growth`): set the objective to the biomass reaction,
solve looplessly, read the biomass flux. -/
def scopedGrowth (solver : Solver) (m : Model) (biomassId : String) :
    Option ℚ × Model :=
  let (m1, u1) := m.setObjectiveOp biomassId
  ((solver m1).map (fun fl => fl biomassId), u1.applyOp m1)

/-- The model as mutated inside `check_essential_reaction`'s scoped block:
objective set to the biomass reaction, bounds of `rid` forced to `[0, 0]`. -/
def knockoutModel (m : Model) (biomassId rid : String) : Model :=
  ((m.setObjective biomassId).setLB rid 0).setUB rid 0

/-- Lines 113–125 of `fseof_fs.py` / 109–121 of `fvseof.py`
(`check_essential_reaction` body): knock the reaction out, solve for growth;
`True` when the solver raises or relative growth falls below the threshold,
`False` otherwise.  Returns the decision and the post-block model. -/
def checkEssentialScoped (solver : Solver) (m : Model)
    (biomassId rid : String) (maximalBiomassGrowth threshold : ℚ) :
    Bool × Model :=
  let (m1, u1) := m.setObjectiveOp biomassId
  let (m2, u2) := m1.setLBOp rid 0
  let (m3, u3) := m2.setUBOp rid 0
  let result :=
    match solver m3 with
    | some fl =>
        if fl biomassId / maximalBiomassGrowth < threshold then true else false
    | none => true
  (result, u1.applyOp (u2.applyOp (u3.applyOp m3)))

/-- Lines 176–187 of `fseof_fs.py` (each sampling block of `FSEOF_FS.run`):
set objective to biomass, raise the sink reaction's lower bound to
`fractionOfYield`, then gather average fluxes over `n` loopless solves.  The
sampling itself performs no mutation, so it is abstracted as `sampler`
applied to the mutated model (`none` when a solve raises). -/
def fseofScopedSample (sampler : Model → Option FluxVec) (m : Model)
    (biomassId sinkId : String) (fractionOfYield : ℚ) :
    Option FluxVec × Model :=
  let (m1, u1) := m.setObjectiveOp biomassId
  let (m2, u2) := m1.setLBOp sinkId fractionOfYield
  (sampler m2, u1.applyOp (u2.applyOp m2))

/-- Lines 150–161 of `fvseof.py` (one per-level step of `FVSEOF.run`): set
objective to biomass, raise the sink reaction's lower bound to the step
level, then run FVA (midpoints) or a loopless FBA solve; either aggregation
is abstracted as `aggregator` applied to the mutated model. -/
def fvseofScopedStep (aggregator : Model → Option FluxVec) (m : Model)
    (biomassId sinkId : String) (stepLowerBound : ℚ) :
    Option FluxVec × Model :=
  let (m1, u1) := m.setObjectiveOp biomassId
  let (m2, u2) := m1.setLBOp sinkId stepLowerBound
  (aggregator m2, u1.applyOp (u2.applyOp m2))

/-!
The analyzer classes.  Both classes carry the same fields; we keep one Lean
structure per Python class, mirroring the duplicated source.
-/

/-- State of an `FSEOF_FS` instance after `__init__` (lines 25–35 of
`fseof_fs.py`). -/
structure FSEOF_FS where
  model : Model
  biomass_reaction_id : String
  target_metabolite_id : String
  product_sink_reaction_id : String
  product_max_theoretical_yield : ℚ
  maximal_biomass_growth : ℚ
  check_essential_reaction_threshold : ℚ
deriving DecidableEq, Repr

/-- State of an `FVSEOF` instance after `__init__` (lines 24–34 of
`fvseof.py`). -/
structure FVSEOF where
  model : Model
  biomass_reaction_id : String
  target_metabolite_id : String
  product_sink_reaction_id : String
  product_max_theoretical_yield : ℚ
  maximal_biomass_growth : ℚ
  check_essential_reaction_threshold : ℚ
deriving DecidableEq, Repr

/-- The sink reaction `FSEOF_FS.add_product_sink_reaction` builds (lines
55–60 of `fseof_fs.py`): id `<metabolite>_sink`, consumes one unit of the
target metabolite per unit flux, bounds `(0.0, 1000.0)`.  A fresh
`cobra.Reaction` has empty name and gene-reaction rule. -/
def fseofSinkRxn (targetMetaboliteId : String) : Rxn :=
  { id := targetMetaboliteId ++ "_sink"
    name := ""
    lb := 0
    ub := 1000
    grr := ""
    mets := [(targetMetaboliteId, -1)] }

/-- The sink reaction `FVSEOF.add_product_sink_reaction` builds (lines
51–56 of `fvseof.py`): id `<metabolite>_fvseof_sink`, same stoichiometry
and bounds. -/
def fvseofSinkRxn (targetMetaboliteId : String) : Rxn :=
  { id := targetMetaboliteId ++ "_fvseof_sink"
    name := ""
    lb := 0
    ub := 1000
    grr := ""
    mets := [(targetMetaboliteId, -1)] }

/-- How `__init__` can fail: a failed `assert` (with its message), or a
solver exception propagating out of one of the capacity probes. -/
inductive InitError where
  | assertionError (msg : String)
  | solverError
deriving DecidableEq, Repr

/-- Whether an `__init__` outcome is a failed precondition assertion. -/
def isAssertionFailure {α : Type} : Except InitError α × Model → Bool
  | (.error (.assertionError _), _) => true
  | _ => false

/-- Lines 25–35 of `fseof_fs.py` (`FSEOF_FS.__init__`): assert the biomass
reaction id and target metabolite id are present, then inject the sink
reaction, then compute the two capacity scalars through scoped probes.
Returns the constructed instance (or the error) together with the shared
model as left behind: untouched on assertion failure, with the sink
appended otherwise. -/
def mkFSEOF_FS (solver : Solver) (m : Model)
    (biomassReactionId targetMetaboliteId : String) (threshold : ℚ) :
    Except InitError FSEOF_FS × Model :=
  if biomassReactionId ∉ m.reactionIds then
    (.error (.assertionError "Biomass reaction not in model."), m)
  else if targetMetaboliteId ∉ m.metaboliteIds then
    (.error (.assertionError "Target metabolite not in model."), m)
  else
    let sinkId := targetMetaboliteId ++ "_sink"
    let m1 := m.addReaction (fseofSinkRxn targetMetaboliteId)
    let yieldProbe := scopedYield solver m1 sinkId
    match yieldProbe.1 with
    | none => (.error .solverError, yieldProbe.2)
    | some maxYield =>
      let growthProbe := scopedGrowth solver yieldProbe.2 biomassReactionId
      match growthProbe.1 with
      | none => (.error .solverError, growthProbe.2)
      | some maxGrowth =>
        (.ok { model := growthProbe.2
               biomass_reaction_id := biomassReactionId
               target_metabolite_id := targetMetaboliteId
               product_sink_reaction_id := sinkId
               product_max_theoretical_yield := maxYield
               maximal_biomass_growth := maxGrowth
               check_essential_reaction_threshold := threshold }, growthProbe.2)

/-- Lines 24–34 of `fvseof.py` (`FVSEOF.__init__`): identical to
`mkFSEOF_FS` except for the sink reaction id. -/
def mkFVSEOF (solver : Solver) (m : Model)
    (biomassReactionId targetMetaboliteId : String) (threshold : ℚ) :
    Except InitError FVSEOF × Model :=
  if biomassReactionId ∉ m.reactionIds then
    (.error (.assertionError "Biomass reaction not in model."), m)
  else if targetMetaboliteId ∉ m.metaboliteIds then
    (.error (.assertionError "Target metabolite not in model."), m)
  else
    let sinkId := targetMetaboliteId ++ "_fvseof_sink"
    let m1 := m.addReaction (fvseofSinkRxn targetMetaboliteId)
    let yieldProbe := scopedYield solver m1 sinkId
    match yieldProbe.1 with
    | none => (.error .solverError, yieldProbe.2)
    | some maxYield =>
      let growthProbe := scopedGrowth solver yieldProbe.2 biomassReactionId
      match growthProbe.1 with
      | none => (.error .solverError, growthProbe.2)
      | some maxGrowth =>
        (.ok { model := growthProbe.2
               biomass_reaction_id := biomassReactionId
               target_metabolite_id := targetMetaboliteId
               product_sink_reaction_id := sinkId
               product_max_theoretical_yield := maxYield
               maximal_biomass_growth := maxGrowth
               check_essential_reaction_threshold := threshold }, growthProbe.2)

/-- `FSEOF_FS.check_essential_reaction` (lines 99–125 of `fseof_fs.py`),
as the boolean decision of its scoped probe. -/
def FSEOF_FS.check_essential_reaction (a : FSEOF_FS) (solver : Solver)
    (rid : String) : Bool :=
  (checkEssentialScoped solver a.model a.biomass_reaction_id rid
    a.maximal_biomass_growth a.check_essential_reaction_threshold).1

/-- `FVSEOF.check_essential_reaction` (lines 95–121 of `fvseof.py`),
as the boolean decision of its scoped probe. -/
def FVSEOF.check_essential_reaction (a : FVSEOF) (solver : Solver)
    (rid : String) : Bool :=
  (checkEssentialScoped solver a.model a.biomass_reaction_id rid
    a.maximal_biomass_growth a.check_essential_reaction_threshold).1

/-!
Result rows and the ranking order.  `pandas.sort_values(by=[type_col,
score_col], ascending=[False, False])` orders rows by descending
lexicographic string comparison on the type column and, within equal type,
by descending score; `FVSEOF.run` passes `key=... abs ...` so its score
column is compared by absolute value.  We embed the comparison as `keyLE`
on (type, score-key) pairs and sort with insertion sort — the claims only
concern key order and row multiset, both of which are sort-algorithm
independent.
-/

/-- Python's string comparison, which pandas uses to sort an object
column: strict lexicographic order on the sequence of code points. -/
def pyLt (s t : String) : Prop :=
  List.Lex (fun c d : Char => c < d) s.data t.data

instance (s t : String) : Decidable (pyLt s t) := by
  unfold pyLt; exact List.Lex.decidableRel _ _ _

/-- Pair order of `sort_values(ascending=[False, False])`: `p` may precede
`q` when `p`'s string key is lexicographically greater, or the string keys
are equal and `p`'s numeric key is at least `q`'s. -/
def keyLE (p q : String × ℚ) : Prop :=
  pyLt q.1 p.1 ∨ (p.1 = q.1 ∧ q.2 ≤ p.2)

instance (p q : String × ℚ) : Decidable (keyLE p q) := by
  unfold keyLE; infer_instance

/-- One row of the table `FSEOF_FS.run` returns (lines 207–224 of
`fseof_fs.py`): the dict built per passing reaction plus the
`abs_diff_mean_fluxes` column added before sorting. -/
structure FseofRow where
  target_type : String
  reaction_id : String
  reaction_name : String
  mean_flux_low : ℚ
  mean_flux_high : ℚ
  essential : Option Bool
  abs_diff_mean_fluxes : ℚ
deriving DecidableEq, Repr

/-- Row order of the `sort_values` call on line 225 of `fseof_fs.py`. -/
def fseofRowLE (a b : FseofRow) : Prop :=
  keyLE (a.target_type, a.abs_diff_mean_fluxes)
    (b.target_type, b.abs_diff_mean_fluxes)

instance : DecidableRel fseofRowLE := fun a b => by
  unfold fseofRowLE; infer_instance

/-- One row of the table `FVSEOF.run` returns (lines 190–207 of
`fvseof.py`): target type, regression slope, gene-reaction rule, optional
essentiality, and the per-step flux columns; the dataframe index is the
reaction id. -/
structure FvseofRow where
  reaction_id : String
  target_type : String
  slope : ℚ
  gene_reaction_rule : String
  essentiality : Option Bool
  step_fluxes : List ℚ
deriving DecidableEq, Repr

/-- Row order of the `sort_values` call on line 208 of `fvseof.py`: the
slope column is compared through `abs`. -/
def fvseofRowLE (a b : FvseofRow) : Prop :=
  keyLE (a.target_type, |a.slope|) (b.target_type, |b.slope|)

instance : DecidableRel fvseofRowLE := fun a b => by
  unfold fvseofRowLE; infer_instance

/-- Slope of the ordinary-least-squares degree-1 fit of `ys` against `xs`,
the mathematical value `np.polyfit(xs, ys, 1)[0]` computes: with
`n = |xs|`, slope `= (n·Σxy − Σx·Σy) / (n·Σx² − (Σx)²)`.  For a degenerate
system (the denominator zero, e.g. a single point) `ℚ` division yields `0`,
matching the zero slope of numpy's minimum-norm resolution of the
underdetermined one-point fit. -/
def lsSlope (xs ys : List ℚ) : ℚ :=
  let n : ℚ := xs.length
  let sx := xs.sum
  let sy := ys.sum
  let sxy := (List.zipWith (fun x y => x * y) xs ys).sum
  let sxx := (xs.map (fun x => x * x)).sum
  (n * sxy - sx * sy) / (n * sxx - sx * sx)

/-- Line 143 of `fvseof.py`: the swept lower bounds
`[n/n_steps*self.product_max_theoretical_yield for n in range(0, n_steps)]`. -/
def fvseofSteps (nSteps : ℕ) (maxYield : ℚ) : List ℚ :=
  (List.range nSteps).map (fun n : ℕ => (n : ℚ) / (nSteps : ℚ) * maxYield)

/-- Lines 190–227 of `fseof_fs.py` (`FSEOF_FS.run` after the two sampling
blocks): per-reaction classification from the two mean-flux maps, the
`abs_diff_mean_fluxes` column, and the final sort.  The loop body appends a
row exactly when the two mean fluxes have product `> 0`. -/
def fseofClassifyRow (a : FSEOF_FS) (solver : Solver)
    (check_essentiality : Bool) (fluxes_low fluxes_high : FluxVec)
    (r : Rxn) : Option FseofRow :=
  let mean_flux_low_r := fluxes_low r.id
  let mean_flux_high_r := fluxes_high r.id
  if mean_flux_low_r * mean_flux_high_r > 0 then
    some { target_type :=
             if |mean_flux_high_r| > |mean_flux_low_r| then "Up" else "Down"
           reaction_id := r.id
           reaction_name := r.name
           mean_flux_low := mean_flux_low_r
           mean_flux_high := mean_flux_high_r
           essential :=
             if check_essentiality then
               some (a.check_essential_reaction solver r.id)
             else none
           abs_diff_mean_fluxes := 0 }
  else none

/-- The `df.apply` pass on line 224 of `fseof_fs.py` filling the
`abs_diff_mean_fluxes` column. -/
def addAbsDiff (row : FseofRow) : FseofRow :=
  { row with abs_diff_mean_fluxes := |row.mean_flux_low - row.mean_flux_high| }

/-- `FSEOF_FS.run`, lines 189–227 of `fseof_fs.py`, with the results of the
two scoped sampling blocks abstracted as the mean-flux maps `fluxes_low`
and `fluxes_high`.  When no reaction passes classification,
`pd.DataFrame([])` has no columns at all, so the `sort_values` on the
missing `target_type` column raises a `KeyError`; this is the `.error`
branch. -/
def FSEOF_FS.run (a : FSEOF_FS) (solver : Solver)
    (fluxes_low fluxes_high : FluxVec) (check_essentiality : Bool) :
    Except String (List FseofRow) :=
  let df_data := a.model.reactions.filterMap
    (fseofClassifyRow a solver check_essentiality fluxes_low fluxes_high)
  if df_data.isEmpty then
    .error "KeyError: target_type"
  else
    .ok (List.insertionSort fseofRowLE (df_data.map addAbsDiff))

/-- Lines 164–174 of `fvseof.py`: the target type assigned from the first
and last per-step fluxes, `none` when the reaction is dropped because
either is exactly zero. -/
def fvseofClassify (firstFlux lastFlux : ℚ) : Option String :=
  if ¬firstFlux = 0 ∧ ¬lastFlux = 0 then
    if firstFlux * lastFlux ≥ 0 then
      some (if |lastFlux| > |firstFlux| then "Up" else "Down")
    else
      some "Reverse"
  else none

/-- Lines 164–205 of `fvseof.py` for a single reaction: its per-step flux
series, its classification, its regression slope against the step lower
bounds, and its optional essentiality — `none` when the reaction is
excluded (then no essentiality check runs for it, line 187). -/
def fvseofBuildRow (a : FVSEOF) (solver : Solver) (check_essentiality : Bool)
    (steps_lower_bounds : List ℚ) (agg : ℚ → FluxVec) (r : Rxn) :
    Option FvseofRow :=
  let per_step := steps_lower_bounds.map (fun s => agg s r.id)
  (fvseofClassify per_step.headI per_step.getLastI).map (fun tt =>
    { reaction_id := r.id
      target_type := tt
      slope := lsSlope steps_lower_bounds per_step
      gene_reaction_rule := r.grr
      essentiality :=
        if check_essentiality then
          some (a.check_essential_reaction solver r.id)
        else none
      step_fluxes := per_step })

/-- `FVSEOF.run`, lines 143–210 of `fvseof.py`.  The per-level scoped
probes (FVA midpoints, or the loopless-FBA fallback) are abstracted as
`agg`, mapping a step's sink lower bound to the aggregated flux map the
probe produced; both aggregation modes are deterministic functions of the
mutated model, which differs between steps only in that bound.  The empty
table hits the same missing-column `KeyError` in `sort_values` as in
`FSEOF_FS.run`. -/
def FVSEOF.run (a : FVSEOF) (solver : Solver) (agg : ℚ → FluxVec)
    (n_steps : ℕ) (check_essentiality : Bool) :
    Except String (List FvseofRow) :=
  let steps_lower_bounds := fvseofSteps n_steps a.product_max_theoretical_yield
  let df_data := a.model.reactions.filterMap
    (fvseofBuildRow a solver check_essentiality steps_lower_bounds agg)
  if df_data.isEmpty then
    .error "KeyError: target_type"
  else
    .ok (List.insertionSort fvseofRowLE df_data)

/-- Rank of a target type in the order the tables actually come out:
descending lexicographic on the type string puts `"Up"` first, then
`"Reverse"`, then `"Down"`. -/
def typeRank (t : String) : ℕ :=
  if t = "Up" then 0 else if t = "Reverse" then 1 else 2

/-!
Concrete fixtures used to instantiate the theorems below: a three-reaction
model, analyzer states over it, a solver that always answers, and
aggregation results exercising each classification branch.
-/

/-- A biomass reaction for the fixture model. -/
def rxnBio : Rxn :=
  { id := "BIOMASS", name := "", lb := 0, ub := 1000, grr := "", mets := [] }

/-- Fixture reaction `A`. -/
def rxnA : Rxn :=
  { id := "A", name := "rA", lb := -1000, ub := 1000, grr := "gA", mets := [] }

/-- Fixture reaction `B`. -/
def rxnB : Rxn :=
  { id := "B", name := "rB", lb := -1000, ub := 1000, grr := "gB", mets := [] }

/-- The fixture model. -/
def mFix : Model :=
  { reactions := [rxnBio, rxnA, rxnB], metabolites := ["MET"], objective := "" }

/-- A fixture `FSEOF_FS` state over `mFix`. -/
def aFseofFix : FSEOF_FS :=
  { model := mFix
    biomass_reaction_id := "BIOMASS"
    target_metabolite_id := "MET"
    product_sink_reaction_id := "MET_sink"
    product_max_theoretical_yield := 2
    maximal_biomass_growth := 1
    check_essential_reaction_threshold := 1/2 }

/-- A fixture `FVSEOF` state over `mFix` with maximal theoretical yield 2. -/
def aFvseofFix : FVSEOF :=
  { model := mFix
    biomass_reaction_id := "BIOMASS"
    target_metabolite_id := "MET"
    product_sink_reaction_id := "MET_fvseof_sink"
    product_max_theoretical_yield := 2
    maximal_biomass_growth := 1
    check_essential_reaction_threshold := 1/2 }

/-- A fixture `FVSEOF` state whose maximal theoretical yield is zero (the
target cannot be produced at all: the yield probe returned flux 0). -/
def aFvseofZero : FVSEOF :=
  { model := mFix
    biomass_reaction_id := "BIOMASS"
    target_metabolite_id := "MET"
    product_sink_reaction_id := "MET_fvseof_sink"
    product_max_theoretical_yield := 0
    maximal_biomass_growth := 1
    check_essential_reaction_threshold := 1/2 }

/-- A solver that always returns the all-ones flux vector. -/
def solverFix : Solver := fun _ => some (fun _ => 1)

/-- Aggregated per-step fluxes over the two levels `[0, 1]` of `aFvseofFix`:
reaction `A` decreases from 3 to 2 (a `"Down"` target), reaction `B` flips
sign from 1 to −1 (a `"Reverse"` target), `BIOMASS` stays at 0 (excluded). -/
def aggFix : ℚ → FluxVec := fun s rid =>
  if rid = "A" then (if s = 0 then 3 else 2)
  else if rid = "B" then (if s = 0 then 1 else -1)
  else 0

/-- Aggregated fluxes where only reaction `A` carries flux, constant 3. -/
def aggOne : ℚ → FluxVec := fun _ rid => if rid = "A" then 3 else 0

/-- Low-level mean fluxes: `A` at −2, all else 0 (the spec's own example). -/
def lowFlux : FluxVec := fun rid => if rid = "A" then -2 else 0

/-- High-level mean fluxes: `A` at −5, all else 0. -/
def highFlux : FluxVec := fun rid => if rid = "A" then -5 else 0

/-- The all-zero mean-flux map: no reaction can pass the same-sign test. -/
def zeroFlux : FluxVec := fun _ => 0

/-- The `"Down"` row `FVSEOF.run` builds for reaction `A` under `aggFix`. -/
def rowAFix : FvseofRow :=
  { reaction_id := "A", target_type := "Down", slope := -1,
    gene_reaction_rule := "gA", essentiality := none, step_fluxes := [3, 2] }

/-- The `"Reverse"` row `FVSEOF.run` builds for reaction `B` under `aggFix`. -/
def rowBFix : FvseofRow :=
  { reaction_id := "B", target_type := "Reverse", slope := -2,
    gene_reaction_rule := "gB", essentiality := none, step_fluxes := [1, -1] }

/-- The single row `FVSEOF.run` with `n_steps = 1` builds for reaction `A`
under `aggOne`: its score is the slope of a one-point fit. -/
def rowOneStep : FvseofRow :=
  { reaction_id := "A", target_type := "Down", slope := 0,
    gene_reaction_rule := "gA", essentiality := none, step_fluxes := [3] }

/-- The `"Up"` row `FSEOF_FS.run` builds for reaction `A` under
`lowFlux`/`highFlux` (the spec's example: −2 to −5, score 3). -/
def rowUpFix : FseofRow :=
  { target_type := "Up", reaction_id := "A", reaction_name := "rA",
    mean_flux_low := -2, mean_flux_high := -5, essential := none,
    abs_diff_mean_fluxes := 3 }

/-!
Helper lemmas: restoration laws for the undo-log primitives, order facts
for the ranking relation, and membership characterizations of the two run
functions.
-/

/-- Setting a lower bound back to its current value is the identity. -/
theorem setLB_lbOf (m : Model) (rid : String) : m.setLB rid (m.lbOf rid) = m := by
  cases m with
  | mk rs mets obj =>
    simp only [Model.setLB, Model.lbOf]
    congr 1
    induction rs with
    | nil => rfl
    | cons r rs ih =>
      by_cases h : r.id = rid
      · subst h
        simp [replaceFirst, List.find?]
      · simpa [replaceFirst, List.find?, h] using ih

/-- Setting an upper bound back to its current value is the identity. -/
theorem setUB_ubOf (m : Model) (rid : String) : m.setUB rid (m.ubOf rid) = m := by
  cases m with
  | mk rs mets obj =>
    simp only [Model.setUB, Model.ubOf]
    congr 1
    induction rs with
    | nil => rfl
    | cons r rs ih =>
      by_cases h : r.id = rid
      · subst h
        simp [replaceFirst, List.find?]
      · simpa [replaceFirst, List.find?, h] using ih

/-- Bound edits do not touch the stored objective, so replaying an
objective undo entry restores it unconditionally. -/
theorem setObjective_restore (m : Model) (rid v : String) :
    (m.setObjective rid).setObjective v = m.setObjective v := rfl

theorem pyLt_trichot (s t : String) : pyLt s t ∨ s = t ∨ pyLt t s := by
  rcases trichotomous_of (List.Lex (fun c d : Char => c < d)) s.data t.data
    with h | h | h
  · exact Or.inl h
  · rcases s with ⟨sd⟩
    rcases t with ⟨td⟩
    simp only at h
    subst h
    exact Or.inr (Or.inl rfl)
  · exact Or.inr (Or.inr h)

theorem pyLt_trans (p q r : String) (h1 : pyLt p q) (h2 : pyLt q r) :
    pyLt p r :=
  trans_of (List.Lex (fun c d : Char => c < d)) h1 h2

theorem keyLE_total (p q : String × ℚ) : keyLE p q ∨ keyLE q p := by
  rcases pyLt_trichot p.1 q.1 with h | h | h
  · exact Or.inr (Or.inl h)
  · rcases le_total p.2 q.2 with h2 | h2
    · exact Or.inr (Or.inr ⟨h.symm, h2⟩)
    · exact Or.inl (Or.inr ⟨h, h2⟩)
  · exact Or.inl (Or.inl h)

theorem keyLE_trans (p q r : String × ℚ) (h1 : keyLE p q) (h2 : keyLE q r) :
    keyLE p r := by
  rcases h1 with h1 | ⟨e1, l1⟩
  · rcases h2 with h2 | ⟨e2, l2⟩
    · exact Or.inl (pyLt_trans _ _ _ h2 h1)
    · exact Or.inl (e2 ▸ h1)
  · rcases h2 with h2 | ⟨e2, l2⟩
    · exact Or.inl (e1 ▸ h2)
    · exact Or.inr ⟨e1.trans e2, le_trans l2 l1⟩

/-- Replacing twice at the same id composes, provided the first edit keeps
the id (bound edits do). -/
theorem replaceFirst_twice (f g : Rxn → Rxn) (rid : String) (l : List Rxn)
    (hg : ∀ r, (g r).id = r.id) :
    replaceFirst f rid (replaceFirst g rid l) =
      replaceFirst (fun r => f (g r)) rid l := by
  induction l with
  | nil => rfl
  | cons r rs ih =>
    by_cases h : r.id = rid
    · simp [replaceFirst, h, hg]
    · simp [replaceFirst, h, ih]

/-- Two successive writes to the same lower bound collapse to the last. -/
theorem setLB_setLB (m : Model) (rid : String) (v w : ℚ) :
    (m.setLB rid v).setLB rid w = m.setLB rid w := by
  cases m with
  | mk rs mets obj =>
    simp only [Model.setLB]
    congr 1
    rw [replaceFirst_twice]
    intro r
    rfl

/-- Two successive writes to the same upper bound collapse to the last. -/
theorem setUB_setUB (m : Model) (rid : String) (v w : ℚ) :
    (m.setUB rid v).setUB rid w = m.setUB rid w := by
  cases m with
  | mk rs mets obj =>
    simp only [Model.setUB]
    congr 1
    rw [replaceFirst_twice]
    intro r
    rfl

/-- The yield probe hands the model back exactly as it received it. -/
theorem scopedYield_model (solver : Solver) (m : Model) (sid : String) :
    (scopedYield solver m sid).2 = m := rfl

/-- The growth probe hands the model back exactly as it received it. -/
theorem scopedGrowth_model (solver : Solver) (m : Model) (bid : String) :
    (scopedGrowth solver m bid).2 = m := rfl

/-- The essentiality probe restores objective and both knocked-out bounds,
replaying its three undo entries in LIFO order. -/
theorem checkEssentialScoped_model (solver : Solver) (m : Model)
    (bid rid : String) (g thr : ℚ) :
    (checkEssentialScoped solver m bid rid g thr).2 = m := by
  simp only [checkEssentialScoped, Model.setObjectiveOp, Model.setLBOp,
    Model.setUBOp, HistOp.applyOp]
  rw [setUB_setUB, setUB_ubOf, setLB_setLB, setLB_lbOf]
  rfl

/-- Each FSEOF sampling block restores the sink bound and the objective. -/
theorem fseofScopedSample_model (sampler : Model → Option FluxVec) (m : Model)
    (bid sid : String) (lvl : ℚ) :
    (fseofScopedSample sampler m bid sid lvl).2 = m := by
  simp only [fseofScopedSample, Model.setObjectiveOp, Model.setLBOp,
    HistOp.applyOp]
  rw [setLB_setLB, setLB_lbOf]
  rfl

/-- Each FVSEOF per-level block restores the sink bound and the objective. -/
theorem fvseofScopedStep_model (aggregator : Model → Option FluxVec)
    (m : Model) (bid sid : String) (lvl : ℚ) :
    (fvseofScopedStep aggregator m bid sid lvl).2 = m := by
  simp only [fvseofScopedStep, Model.setObjectiveOp, Model.setLBOp,
    HistOp.applyOp]
  rw [setLB_setLB, setLB_lbOf]
  rfl

/-- Construction leaves the shared model either untouched (failed
precondition) or with exactly the sink reaction appended — FSEOF variant. -/
theorem mkFSEOF_FS_model (solver : Solver) (m : Model) (bid tid : String)
    (thr : ℚ) :
    (mkFSEOF_FS solver m bid tid thr).2 = m ∨
    (mkFSEOF_FS solver m bid tid thr).2 =
      m.addReaction (fseofSinkRxn tid) := by
  unfold mkFSEOF_FS
  by_cases h1 : bid ∉ m.reactionIds
  · rw [if_pos h1]
    exact Or.inl rfl
  · rw [if_neg h1]
    by_cases h2 : tid ∉ m.metaboliteIds
    · rw [if_pos h2]
      exact Or.inl rfl
    · rw [if_neg h2]
      right
      rcases hy : (scopedYield solver (m.addReaction (fseofSinkRxn tid))
          (tid ++ "_sink")).1 with _ | q
      · simp only [hy, scopedYield_model]
      · rcases hg : (scopedGrowth solver
            (m.addReaction (fseofSinkRxn tid)) bid).1 with _ | q2
        · simp only [hy, hg, scopedGrowth_model, scopedYield_model]
        · simp only [hy, hg, scopedGrowth_model, scopedYield_model]

/-- Construction leaves the shared model either untouched (failed
precondition) or with exactly the sink reaction appended — FVSEOF variant. -/
theorem mkFVSEOF_model (solver : Solver) (m : Model) (bid tid : String)
    (thr : ℚ) :
    (mkFVSEOF solver m bid tid thr).2 = m ∨
    (mkFVSEOF solver m bid tid thr).2 =
      m.addReaction (fvseofSinkRxn tid) := by
  unfold mkFVSEOF
  by_cases h1 : bid ∉ m.reactionIds
  · rw [if_pos h1]
    exact Or.inl rfl
  · rw [if_neg h1]
    by_cases h2 : tid ∉ m.metaboliteIds
    · rw [if_pos h2]
      exact Or.inl rfl
    · rw [if_neg h2]
      right
      rcases hy : (scopedYield solver (m.addReaction (fvseofSinkRxn tid))
          (tid ++ "_fvseof_sink")).1 with _ | q
      · simp only [hy, scopedYield_model]
      · rcases hg : (scopedGrowth solver
            (m.addReaction (fvseofSinkRxn tid)) bid).1 with _ | q2
        · simp only [hy, hg, scopedGrowth_model, scopedYield_model]
        · simp only [hy, hg, scopedGrowth_model, scopedYield_model]

/-!
The claims.
-/

/-- Concrete evaluation of `FVSEOF.run` on the fixture: reaction `A` is a
`"Down"` target with slope −1, reaction `B` a `"Reverse"` target with slope
−2, `BIOMASS` is excluded, and the sort puts the `"Reverse"` row first. -/
theorem fvseofFix_run_eval :
    aFvseofFix.run solverFix aggFix 2 false = .ok [rowBFix, rowAFix] := by
  have eBA : ¬ ("BIOMASS" : String) = "A" := by decide
  have eBB : ¬ ("BIOMASS" : String) = "B" := by decide
  have eB2A : ¬ ("B" : String) = "A" := by decide
  have hsteps : fvseofSteps 2 (2 : ℚ) = [0, 1] := by
    norm_num [fvseofSteps, List.range_succ]
  have hbio : fvseofBuildRow aFvseofFix solverFix false [0, 1] aggFix rxnBio
      = none := by
    norm_num [fvseofBuildRow, fvseofClassify, aggFix, rxnBio, List.getLastI,
      List.headI, eBA, eBB]
  have hA : fvseofBuildRow aFvseofFix solverFix false [0, 1] aggFix rxnA
      = some rowAFix := by
    norm_num [fvseofBuildRow, fvseofClassify, aggFix, rxnA, List.getLastI,
      List.headI, lsSlope, rowAFix, List.zipWith]
  have hB : fvseofBuildRow aFvseofFix solverFix false [0, 1] aggFix rxnB
      = some rowBFix := by
    norm_num [fvseofBuildRow, fvseofClassify, aggFix, rxnB, List.getLastI,
      List.headI, lsSlope, rowBFix, List.zipWith, eB2A]
  have hfm : mFix.reactions.filterMap
      (fvseofBuildRow aFvseofFix solverFix false [0, 1] aggFix)
      = [rowAFix, rowBFix] := by
    rw [show mFix.reactions = [rxnBio, rxnA, rxnB] from rfl]
    rw [List.filterMap_cons_none hbio, List.filterMap_cons_some hA,
      List.filterMap_cons_some hB, List.filterMap_nil]
  unfold FVSEOF.run
  rw [show aFvseofFix.product_max_theoretical_yield = 2 from rfl, hsteps,
    show aFvseofFix.model = mFix from rfl]
  simp only [hfm]
  rw [if_neg (by decide : ¬ ([rowAFix, rowBFix].isEmpty = true))]
  exact congrArg Except.ok (by decide)

/-- A successful `FSEOF_FS.run` returns exactly the sorted classified rows. -/
theorem fseofRun_ok_rows {a : FSEOF_FS} {solver : Solver}
    {fluxes_low fluxes_high : FluxVec} {ce : Bool} {rows : List FseofRow}
    (h : a.run solver fluxes_low fluxes_high ce = Except.ok rows) :
    rows = List.insertionSort fseofRowLE
      ((a.model.reactions.filterMap
        (fseofClassifyRow a solver ce fluxes_low fluxes_high)).map addAbsDiff) := by
  simp only [FSEOF_FS.run] at h
  split at h
  · exact absurd h (by simp)
  · exact (Except.ok.inj h).symm

/-- A successful `FVSEOF.run` returns exactly the sorted classified rows. -/
theorem fvseofRun_ok_rows {b : FVSEOF} {solver : Solver} {agg : ℚ → FluxVec}
    {k : ℕ} {ce : Bool} {rows : List FvseofRow}
    (h : b.run solver agg k ce = Except.ok rows) :
    rows = List.insertionSort fvseofRowLE
      (b.model.reactions.filterMap
        (fvseofBuildRow b solver ce
          (fvseofSteps k b.product_max_theoretical_yield) agg)) := by
  simp only [FVSEOF.run] at h
  split at h
  · exact absurd h (by simp)
  · exact (Except.ok.inj h).symm

/-- The `abs_diff` pass keeps the target type. -/
theorem addAbsDiff_target (row : FseofRow) :
    (addAbsDiff row).target_type = row.target_type := rfl

/-- The `abs_diff` pass keeps the reaction id. -/
theorem addAbsDiff_id (row : FseofRow) :
    (addAbsDiff row).reaction_id = row.reaction_id := rfl

/-- A classified FSEOF row is an `"Up"` or a `"Down"` target. -/
theorem fseofRow_type {a : FSEOF_FS} {solver : Solver} {ce : Bool}
    {fluxes_low fluxes_high : FluxVec} {r : Rxn} {row0 : FseofRow}
    (h : fseofClassifyRow a solver ce fluxes_low fluxes_high r = some row0) :
    row0.target_type = "Up" ∨ row0.target_type = "Down" := by
  by_cases hc : fluxes_low r.id * fluxes_high r.id > 0
  · simp only [fseofClassifyRow, if_pos hc, Option.some.injEq] at h
    subst h
    by_cases hup : |fluxes_high r.id| > |fluxes_low r.id|
    · exact Or.inl (by simp [hup])
    · exact Or.inr (by simp [hup])
  · simp [fseofClassifyRow, hc] at h

/-- The target type `fvseofClassify` assigns is one of the three labels. -/
theorem fvseofClassify_cases {x y : ℚ} {tt : String}
    (h : fvseofClassify x y = some tt) :
    tt = "Up" ∨ tt = "Down" ∨ tt = "Reverse" := by
  unfold fvseofClassify at h
  by_cases h1 : ¬x = 0 ∧ ¬y = 0
  · rw [if_pos h1] at h
    by_cases h2 : x * y ≥ 0
    · rw [if_pos h2] at h
      rcases Option.some.inj h with rfl
      by_cases hup : |y| > |x|
      · exact Or.inl (by simp [hup])
      · exact Or.inr (Or.inl (by simp [hup]))
    · rw [if_neg h2] at h
      exact Or.inr (Or.inr (Option.some.inj h).symm)
  · rw [if_neg h1] at h
    exact absurd h (by simp)

/-- A classified FVSEOF row carries one of the three labels. -/
theorem fvseofRow_type {b : FVSEOF} {solver : Solver} {ce : Bool}
    {steps : List ℚ} {agg : ℚ → FluxVec} {r : Rxn} {row0 : FvseofRow}
    (h : fvseofBuildRow b solver ce steps agg r = some row0) :
    row0.target_type = "Up" ∨ row0.target_type = "Down" ∨
      row0.target_type = "Reverse" := by
  simp only [fvseofBuildRow, Option.map_eq_some'] at h
  rcases h with ⟨tt, htt, rfl⟩
  exact fvseofClassify_cases htt

/-- From the pandas comparison to the rank order, on actual labels: a pair
that may precede another in the descending-lexicographic sort has a type of
lower or equal rank, with the tie exactly at equal type strings. -/
theorem keyLE_to_rank {s t : String} {c : Prop}
    (hs : s = "Up" ∨ s = "Down" ∨ s = "Reverse")
    (ht : t = "Up" ∨ t = "Down" ∨ t = "Reverse")
    (h : pyLt t s ∨ (s = t ∧ c)) :
    typeRank s < typeRank t ∨ (s = t ∧ c) := by
  rcases h with h | h
  · left
    rcases hs with rfl | rfl | rfl <;> rcases ht with rfl | rfl | rfl <;>
      revert h <;> decide
  · exact Or.inr h

/-- Claim C1 (amended): every table emitted by `FSEOF_FS.run` or
`FVSEOF.run` is ordered with `"Up"` rows first, then `"Reverse"`, then
`"Down"` (descending lexicographic order of the type string), and within
rows of equal target type the FSEOF score, respectively the absolute value
of the FVSEOF slope, is non-increasing down the table. -/
theorem claim_C1 :
    (∀ (a : FSEOF_FS) (solver : Solver) (fluxes_low fluxes_high : FluxVec)
      (ce : Bool) (rows : List FseofRow),
      a.run solver fluxes_low fluxes_high ce = Except.ok rows →
      rows.Pairwise (fun x y =>
        typeRank x.target_type < typeRank y.target_type ∨
        (x.target_type = y.target_type ∧
          y.abs_diff_mean_fluxes ≤ x.abs_diff_mean_fluxes))) ∧
    (∀ (b : FVSEOF) (solver : Solver) (agg : ℚ → FluxVec) (k : ℕ) (ce : Bool)
      (rows : List FvseofRow),
      b.run solver agg k ce = Except.ok rows →
      rows.Pairwise (fun x y =>
        typeRank x.target_type < typeRank y.target_type ∨
        (x.target_type = y.target_type ∧ |y.slope| ≤ |x.slope|))) := by
  constructor
  · intro a solver fluxes_low fluxes_high ce rows h
    rw [fseofRun_ok_rows h]
    haveI : IsTotal FseofRow fseofRowLE := ⟨fun x y => keyLE_total _ _⟩
    haveI : IsTrans FseofRow fseofRowLE := ⟨fun x y z => keyLE_trans _ _ _⟩
    have hsorted := List.sorted_insertionSort fseofRowLE
      ((a.model.reactions.filterMap
        (fseofClassifyRow a solver ce fluxes_low fluxes_high)).map addAbsDiff)
    have htypes : ∀ row ∈ List.insertionSort fseofRowLE
        ((a.model.reactions.filterMap
          (fseofClassifyRow a solver ce fluxes_low fluxes_high)).map addAbsDiff),
        row.target_type = "Up" ∨ row.target_type = "Down" ∨
          row.target_type = "Reverse" := by
      intro row hrow
      rw [(List.perm_insertionSort _ _).mem_iff] at hrow
      rcases List.mem_map.mp hrow with ⟨row0, h0, rfl⟩
      rcases List.mem_filterMap.mp h0 with ⟨r, hr, hsome⟩
      rw [addAbsDiff_target]
      rcases fseofRow_type hsome with h1 | h1
      · exact Or.inl h1
      · exact Or.inr (Or.inl h1)
    exact hsorted.imp_of_mem (fun hx hy hxy =>
      keyLE_to_rank (htypes _ hx) (htypes _ hy) hxy)
  · intro b solver agg k ce rows h
    rw [fvseofRun_ok_rows h]
    haveI : IsTotal FvseofRow fvseofRowLE := ⟨fun x y => keyLE_total _ _⟩
    haveI : IsTrans FvseofRow fvseofRowLE := ⟨fun x y z => keyLE_trans _ _ _⟩
    have hsorted := List.sorted_insertionSort fvseofRowLE
      (b.model.reactions.filterMap
        (fvseofBuildRow b solver ce
          (fvseofSteps k b.product_max_theoretical_yield) agg))
    have htypes : ∀ row ∈ List.insertionSort fvseofRowLE
        (b.model.reactions.filterMap
          (fvseofBuildRow b solver ce
            (fvseofSteps k b.product_max_theoretical_yield) agg)),
        row.target_type = "Up" ∨ row.target_type = "Down" ∨
          row.target_type = "Reverse" := by
      intro row hrow
      rw [(List.perm_insertionSort _ _).mem_iff] at hrow
      rcases List.mem_filterMap.mp hrow with ⟨r, hr, hsome⟩
      exact fvseofRow_type hsome
    exact hsorted.imp_of_mem (fun hx hy hxy =>
      keyLE_to_rank (htypes _ hx) (htypes _ hy) hxy)

/-- Claim C1 (counterexample to the order as claimed): a run whose table
holds a `"Down"` and a `"Reverse"` row places the `"Reverse"` row FIRST,
contradicting the claim that `"Down"` rows precede `"Reverse"` rows. -/
theorem claim_C1_counterexample :
    aFvseofFix.run solverFix aggFix 2 false = .ok [rowBFix, rowAFix] ∧
    rowBFix.target_type = "Reverse" ∧ rowAFix.target_type = "Down" :=
  ⟨fvseofFix_run_eval, rfl, rfl⟩

/-- Claim C1 witness: the amended order at the concrete fixture run. -/
theorem claim_C1_witness :
    List.Pairwise (fun x y : FvseofRow =>
      typeRank x.target_type < typeRank y.target_type ∨
      (x.target_type = y.target_type ∧ |y.slope| ≤ |x.slope|))
      [rowBFix, rowAFix] :=
  claim_C1.2 aFvseofFix solverFix aggFix 2 false [rowBFix, rowAFix]
    fvseofFix_run_eval

/-- Claim C2: for a reaction id present in the model,
`check_essential_reaction` (in both classes) returns `true` exactly when,
on the model with that reaction's bounds forced to `[0, 0]` and the biomass
reaction as objective, the loopless solve raises, or the resulting biomass
flux divided by `maximal_biomass_growth` is strictly below the threshold;
otherwise it returns `false`, and in either case it returns a boolean — no
solver exception escapes (the `none` outcome is mapped to `true`). -/
theorem claim_C2 (solver : Solver) (a : FSEOF_FS) (b : FVSEOF)
    (ridA ridB : String) (_hA : ridA ∈ a.model.reactionIds)
    (_hB : ridB ∈ b.model.reactionIds) :
    (a.check_essential_reaction solver ridA = true ↔
      (solver (knockoutModel a.model a.biomass_reaction_id ridA) = none ∨
        ∃ fl, solver (knockoutModel a.model a.biomass_reaction_id ridA) =
            some fl ∧
          fl a.biomass_reaction_id / a.maximal_biomass_growth <
            a.check_essential_reaction_threshold)) ∧
    (b.check_essential_reaction solver ridB = true ↔
      (solver (knockoutModel b.model b.biomass_reaction_id ridB) = none ∨
        ∃ fl, solver (knockoutModel b.model b.biomass_reaction_id ridB) =
            some fl ∧
          fl b.biomass_reaction_id / b.maximal_biomass_growth <
            b.check_essential_reaction_threshold)) := by
  constructor
  · unfold FSEOF_FS.check_essential_reaction checkEssentialScoped
      Model.setObjectiveOp Model.setLBOp Model.setUBOp knockoutModel
    rcases hs : solver (((a.model.setObjective a.biomass_reaction_id).setLB
        ridA 0).setUB ridA 0) with _ | fl
    · simp [hs]
    · simp only [hs, Option.some.injEq]
      by_cases hlt : fl a.biomass_reaction_id / a.maximal_biomass_growth <
          a.check_essential_reaction_threshold
      · simp [hlt]
      · simp [hlt]
  · unfold FVSEOF.check_essential_reaction checkEssentialScoped
      Model.setObjectiveOp Model.setLBOp Model.setUBOp knockoutModel
    rcases hs : solver (((b.model.setObjective b.biomass_reaction_id).setLB
        ridB 0).setUB ridB 0) with _ | fl
    · simp [hs]
    · simp only [hs, Option.some.injEq]
      by_cases hlt : fl b.biomass_reaction_id / b.maximal_biomass_growth <
          b.check_essential_reaction_threshold
      · simp [hlt]
      · simp [hlt]

/-- Claim C2 witness: at the fixture, knocking out reaction `A` leaves the
all-ones solution, relative growth 1 is not below the threshold 1/2, so the
checker answers `false` on both analyzers. -/
theorem claim_C2_witness :
    (aFseofFix.check_essential_reaction solverFix "A" = true ↔
      (solverFix (knockoutModel aFseofFix.model aFseofFix.biomass_reaction_id
          "A") = none ∨
        ∃ fl, solverFix (knockoutModel aFseofFix.model
            aFseofFix.biomass_reaction_id "A") = some fl ∧
          fl aFseofFix.biomass_reaction_id /
              aFseofFix.maximal_biomass_growth <
            aFseofFix.check_essential_reaction_threshold)) ∧
    (aFvseofFix.check_essential_reaction solverFix "A" = true ↔
      (solverFix (knockoutModel aFvseofFix.model
          aFvseofFix.biomass_reaction_id "A") = none ∨
        ∃ fl, solverFix (knockoutModel aFvseofFix.model
            aFvseofFix.biomass_reaction_id "A") = some fl ∧
          fl aFvseofFix.biomass_reaction_id /
              aFvseofFix.maximal_biomass_growth <
            aFvseofFix.check_essential_reaction_threshold)) :=
  claim_C2 solverFix aFseofFix aFvseofFix "A" "A" (by decide) (by decide)

/-- Claim C5: every scoped probe — yield and growth capacity estimation,
essentiality checking, each FSEOF sampling block and each FVSEOF per-level
step — returns the shared model exactly as it found it, whether the
abstracted solver answers (`some`) or raises (`none`); and across an
analyzer's construction the only mutation that persists on the shared model
is the appended sink reaction. -/
theorem claim_C5 (solver : Solver) (sampler aggregator : Model → Option FluxVec)
    (m : Model) (bid sid rid tidF tidV : String) (g thr lvl : ℚ) :
    (scopedYield solver m sid).2 = m ∧
    (scopedGrowth solver m bid).2 = m ∧
    (checkEssentialScoped solver m bid rid g thr).2 = m ∧
    (fseofScopedSample sampler m bid sid lvl).2 = m ∧
    (fvseofScopedStep aggregator m bid sid lvl).2 = m ∧
    ((mkFSEOF_FS solver m bid tidF thr).2 = m ∨
      (mkFSEOF_FS solver m bid tidF thr).2 =
        m.addReaction (fseofSinkRxn tidF)) ∧
    ((mkFVSEOF solver m bid tidV thr).2 = m ∨
      (mkFVSEOF solver m bid tidV thr).2 =
        m.addReaction (fvseofSinkRxn tidV)) :=
  ⟨scopedYield_model solver m sid, scopedGrowth_model solver m bid,
    checkEssentialScoped_model solver m bid rid g thr,
    fseofScopedSample_model sampler m bid sid lvl,
    fvseofScopedStep_model aggregator m bid sid lvl,
    mkFSEOF_FS_model solver m bid tidF thr,
    mkFVSEOF_model solver m bid tidV thr⟩

/-- Claim C7: each injected sink reaction consumes exactly one unit of the
target metabolite per unit flux with bounds `[0, 1000]`; its id is the
deterministic function `tid ++ "_sink"` (FSEOF) respectively
`tid ++ "_fvseof_sink"` (FVSEOF) of the metabolite id and the variant, and
the two variants' ids never collide on any metabolite. -/
theorem claim_C7 (tid : String) :
    (fseofSinkRxn tid).mets = [(tid, -1)] ∧
    (fseofSinkRxn tid).lb = 0 ∧ (fseofSinkRxn tid).ub = 1000 ∧
    (fseofSinkRxn tid).id = tid ++ "_sink" ∧
    (fvseofSinkRxn tid).mets = [(tid, -1)] ∧
    (fvseofSinkRxn tid).lb = 0 ∧ (fvseofSinkRxn tid).ub = 1000 ∧
    (fvseofSinkRxn tid).id = tid ++ "_fvseof_sink" ∧
    (fseofSinkRxn tid).id ≠ (fvseofSinkRxn tid).id := by
  refine ⟨rfl, rfl, rfl, rfl, rfl, rfl, rfl, rfl, ?_⟩
  intro h
  have hd := congrArg String.data h
  simp only [fseofSinkRxn, fvseofSinkRxn, String.data_append] at hd
  have := List.append_cancel_left hd
  exact absurd this (by decide)

/-- Claim C7 witness: the two injectors at the fixture metabolite. -/
theorem claim_C7_witness :
    (fseofSinkRxn "MET").id = "MET" ++ "_sink" ∧
    (fseofSinkRxn "MET").id ≠ (fvseofSinkRxn "MET").id :=
  ⟨(claim_C7 "MET").2.2.2.1, (claim_C7 "MET").2.2.2.2.2.2.2.2⟩

/-- Claim C6: constructing either analyzer with a biomass reaction id not
among the model's reaction ids, or a target metabolite id not among its
metabolite ids, fails with the assertion error before any sink injection
(the model comes back untouched) and before any solver call (the outcome
does not depend on the solver); with both ids present, construction never
fails with a precondition (assertion) error. -/
theorem claim_C6 (m : Model) (bid tid : String) (thr : ℚ) (s s' : Solver) :
    ((bid ∉ m.reactionIds ∨ tid ∉ m.metaboliteIds) →
      mkFSEOF_FS s m bid tid thr = mkFSEOF_FS s' m bid tid thr ∧
      isAssertionFailure (mkFSEOF_FS s m bid tid thr) = true ∧
      (mkFSEOF_FS s m bid tid thr).2 = m ∧
      mkFVSEOF s m bid tid thr = mkFVSEOF s' m bid tid thr ∧
      isAssertionFailure (mkFVSEOF s m bid tid thr) = true ∧
      (mkFVSEOF s m bid tid thr).2 = m) ∧
    (bid ∈ m.reactionIds → tid ∈ m.metaboliteIds →
      isAssertionFailure (mkFSEOF_FS s m bid tid thr) = false ∧
      isAssertionFailure (mkFVSEOF s m bid tid thr) = false) := by
  constructor
  · intro hmiss
    by_cases h1 : bid ∉ m.reactionIds
    · rw [mkFSEOF_FS, mkFSEOF_FS, mkFVSEOF, mkFVSEOF, if_pos h1, if_pos h1,
        if_pos h1, if_pos h1]
      exact ⟨rfl, rfl, rfl, rfl, rfl, rfl⟩
    · have h2 : tid ∉ m.metaboliteIds := hmiss.resolve_left (by simpa using h1)
      rw [mkFSEOF_FS, mkFSEOF_FS, mkFVSEOF, mkFVSEOF, if_neg h1, if_neg h1,
        if_neg h1, if_neg h1, if_pos h2, if_pos h2, if_pos h2, if_pos h2]
      exact ⟨rfl, rfl, rfl, rfl, rfl, rfl⟩
  · intro hb ht
    have h1 : ¬bid ∉ m.reactionIds := by simpa using hb
    have h2 : ¬tid ∉ m.metaboliteIds := by simpa using ht
    constructor
    · rw [mkFSEOF_FS, if_neg h1, if_neg h2]
      rcases hy : (scopedYield s (m.addReaction (fseofSinkRxn tid))
          (tid ++ "_sink")).1 with _ | q
      · simp only [hy, isAssertionFailure]
      · rcases hg : (scopedGrowth s (m.addReaction (fseofSinkRxn tid))
            bid).1 with _ | q2
        · simp only [hy, hg, scopedYield_model, isAssertionFailure]
        · simp only [hy, hg, scopedYield_model, isAssertionFailure]
    · rw [mkFVSEOF, if_neg h1, if_neg h2]
      rcases hy : (scopedYield s (m.addReaction (fvseofSinkRxn tid))
          (tid ++ "_fvseof_sink")).1 with _ | q
      · simp only [hy, isAssertionFailure]
      · rcases hg : (scopedGrowth s (m.addReaction (fvseofSinkRxn tid))
            bid).1 with _ | q2
        · simp only [hy, hg, scopedYield_model, isAssertionFailure]
        · simp only [hy, hg, scopedYield_model, isAssertionFailure]

/-- Claim C6 witness: over the fixture model, a missing biomass id fails
the assertion with the model untouched, and the honest ids never produce an
assertion failure. -/
theorem claim_C6_witness :
    (isAssertionFailure (mkFSEOF_FS solverFix mFix "nope" "MET" (1/2)) = true ∧
      (mkFSEOF_FS solverFix mFix "nope" "MET" (1/2)).2 = mFix ∧
      isAssertionFailure (mkFVSEOF solverFix mFix "nope" "MET" (1/2)) = true) ∧
    (isAssertionFailure (mkFSEOF_FS solverFix mFix "BIOMASS" "MET" (1/2))
        = false ∧
      isAssertionFailure (mkFVSEOF solverFix mFix "BIOMASS" "MET" (1/2))
        = false) := by
  have h1 := (claim_C6 mFix "nope" "MET" (1/2) solverFix solverFix).1
    (Or.inl (by decide))
  have h2 := (claim_C6 mFix "BIOMASS" "MET" (1/2) solverFix solverFix).2
    (by decide) (by decide)
  exact ⟨⟨h1.2.1, h1.2.2.1, h1.2.2.2.2.1⟩, h2⟩

/-- Claim C9 (amended): for `n_steps = k ≥ 1` the forced-production lower
bounds swept by `FVSEOF.run` are exactly `i/k ×` the maximal theoretical
yield for `i = 0, …, k−1`, in that order; the first level is always `0`,
and — provided the maximal theoretical yield is nonzero — the level equal
to the full yield is never probed. -/
theorem claim_C9 (k : ℕ) (y : ℚ) (hk : 1 ≤ k) :
    (fvseofSteps k y).length = k ∧
    (∀ i, i < k → (fvseofSteps k y)[i]? = some ((i : ℚ) / (k : ℚ) * y)) ∧
    (fvseofSteps k y).headI = 0 ∧
    (y ≠ 0 → y ∉ fvseofSteps k y) := by
  have hlen : (fvseofSteps k y).length = k := by simp [fvseofSteps]
  have hget : ∀ i, i < k →
      (fvseofSteps k y)[i]? = some ((i : ℚ) / (k : ℚ) * y) := by
    intro i hi
    rw [fvseofSteps, List.getElem?_map, List.getElem?_range hi]
    rfl
  refine ⟨hlen, hget, ?_, ?_⟩
  · have h0 := hget 0 (by omega)
    cases hl : fvseofSteps k y with
    | nil => rw [hl] at h0; simp at h0
    | cons a l =>
      rw [hl] at h0
      simp only [List.getElem?_cons_zero, Option.some.injEq] at h0
      simp [List.headI, h0]
  · intro hy hmem
    rw [fvseofSteps] at hmem
    rcases List.mem_map.mp hmem with ⟨i, hir, heq⟩
    have hik : i < k := List.mem_range.mp hir
    have hk0 : (k : ℚ) ≠ 0 := Nat.cast_ne_zero.mpr (by omega)
    have h2 : (i : ℚ) / (k : ℚ) * y = 1 * y := by rw [one_mul, heq]
    have h3 : (i : ℚ) / (k : ℚ) = 1 := mul_right_cancel₀ hy h2
    have hcast : (i : ℚ) = (k : ℚ) := by
      rw [div_eq_one_iff_eq hk0] at h3
      exact h3
    have : i = k := Nat.cast_inj.mp hcast
    omega

/-- Claim C9 (counterexample to "the full-yield level is never probed"):
when the yield probe answers 0 (the target cannot be produced), every
swept level equals the full maximal theoretical yield. -/
theorem claim_C9_counterexample :
    fvseofSteps 2 aFvseofZero.product_max_theoretical_yield = [0, 0] ∧
    aFvseofZero.product_max_theoretical_yield ∈
      fvseofSteps 2 aFvseofZero.product_max_theoretical_yield := by
  have h : fvseofSteps 2 (0 : ℚ) = [0, 0] := by
    norm_num [fvseofSteps, List.range_succ]
  rw [show aFvseofZero.product_max_theoretical_yield = (0 : ℚ) from rfl, h]
  simp

/-- Claim C9 witness: two steps over yield 1 start at level 0 and never
reach level 1. -/
theorem claim_C9_witness :
    (fvseofSteps 2 1).headI = 0 ∧ (1 : ℚ) ∉ fvseofSteps 2 1 :=
  ⟨(claim_C9 2 1 (by omega)).2.2.1,
    (claim_C9 2 1 (by omega)).2.2.2 (by norm_num)⟩

/-- Membership in a successful FSEOF table: exactly the classified rows,
after the `abs_diff` pass, of the model's reactions. -/
theorem fseofRun_mem {a : FSEOF_FS} {solver : Solver}
    {fluxes_low fluxes_high : FluxVec} {ce : Bool} {rows : List FseofRow}
    (h : a.run solver fluxes_low fluxes_high ce = Except.ok rows)
    (row : FseofRow) :
    row ∈ rows ↔ ∃ r ∈ a.model.reactions,
      ∃ row0, fseofClassifyRow a solver ce fluxes_low fluxes_high r
          = some row0 ∧
        row = addAbsDiff row0 := by
  rw [fseofRun_ok_rows h, (List.perm_insertionSort _ _).mem_iff]
  constructor
  · intro hm
    rcases List.mem_map.mp hm with ⟨row0, h0, rfl⟩
    rcases List.mem_filterMap.mp h0 with ⟨r, hr, hsome⟩
    exact ⟨r, hr, row0, hsome, rfl⟩
  · rintro ⟨r, hr, row0, hsome, rfl⟩
    exact List.mem_map.mpr ⟨row0, List.mem_filterMap.mpr ⟨r, hr, hsome⟩, rfl⟩

/-- When at least one reaction classifies, the FSEOF table is built. -/
theorem fseofRun_ok_of_some {a : FSEOF_FS} {solver : Solver}
    {fluxes_low fluxes_high : FluxVec} {ce : Bool} {r : Rxn}
    {row0 : FseofRow} (hr : r ∈ a.model.reactions)
    (hsome : fseofClassifyRow a solver ce fluxes_low fluxes_high r
      = some row0) :
    ∃ rows, a.run solver fluxes_low fluxes_high ce = Except.ok rows := by
  have hmem : row0 ∈ a.model.reactions.filterMap
      (fseofClassifyRow a solver ce fluxes_low fluxes_high) :=
    List.mem_filterMap.mpr ⟨r, hr, hsome⟩
  have hne : ¬(a.model.reactions.filterMap
      (fseofClassifyRow a solver ce fluxes_low fluxes_high)).isEmpty
        = true := by
    intro he
    rw [List.isEmpty_iff] at he
    rw [he] at hmem
    simp at hmem
  unfold FSEOF_FS.run
  rw [if_neg hne]
  exact ⟨_, rfl⟩

/-- What a classified FSEOF row holds: the same-sign test passed and every
field comes from the two mean fluxes of that reaction. -/
theorem fseofClassifyRow_spec {a : FSEOF_FS} {solver : Solver} {ce : Bool}
    {fluxes_low fluxes_high : FluxVec} {r : Rxn} {row0 : FseofRow}
    (h : fseofClassifyRow a solver ce fluxes_low fluxes_high r = some row0) :
    fluxes_low r.id * fluxes_high r.id > 0 ∧
    row0.reaction_id = r.id ∧
    row0.mean_flux_low = fluxes_low r.id ∧
    row0.mean_flux_high = fluxes_high r.id ∧
    row0.target_type =
      (if |fluxes_high r.id| > |fluxes_low r.id| then "Up" else "Down") := by
  by_cases hc : fluxes_low r.id * fluxes_high r.id > 0
  · simp only [fseofClassifyRow, if_pos hc, Option.some.injEq] at h
    subst h
    exact ⟨hc, rfl, rfl, rfl, rfl⟩
  · simp [fseofClassifyRow, hc] at h

/-- Claim C3: `FSEOF_FS.run` emits a row for a reaction exactly when the
product of its low- and high-level mean fluxes is strictly positive; an
emitted row is an `"Up"` target when `|mean_flux_high| > |mean_flux_low|`
and `"Down"` otherwise, and its score is `|mean_flux_low − mean_flux_high|`. -/
theorem claim_C3 (a : FSEOF_FS) (solver : Solver)
    (fluxes_low fluxes_high : FluxVec) (ce : Bool) (i : String)
    (hi : i ∈ a.model.reactionIds) :
    (fluxes_low i * fluxes_high i > 0 ↔
      ∃ rows, a.run solver fluxes_low fluxes_high ce = Except.ok rows ∧
        ∃ row ∈ rows, row.reaction_id = i) ∧
    (∀ rows, a.run solver fluxes_low fluxes_high ce = Except.ok rows →
      ∀ row ∈ rows, row.reaction_id = i →
        fluxes_low i * fluxes_high i > 0 ∧
        row.target_type =
          (if |fluxes_high i| > |fluxes_low i| then "Up" else "Down") ∧
        row.abs_diff_mean_fluxes = |fluxes_low i - fluxes_high i|) := by
  obtain ⟨r, hr, hid⟩ := List.mem_map.mp hi
  constructor
  · constructor
    · intro hpos
      have hrow0 : fseofClassifyRow a solver ce fluxes_low fluxes_high r
          = some { target_type :=
                     if |fluxes_high r.id| > |fluxes_low r.id| then "Up"
                     else "Down"
                   reaction_id := r.id
                   reaction_name := r.name
                   mean_flux_low := fluxes_low r.id
                   mean_flux_high := fluxes_high r.id
                   essential :=
                     if ce then
                       some (a.check_essential_reaction solver r.id)
                     else none
                   abs_diff_mean_fluxes := 0 } := by
        rw [fseofClassifyRow, if_pos (by rw [hid]; exact hpos)]
      rcases fseofRun_ok_of_some hr hrow0 with ⟨rows, hok⟩
      refine ⟨rows, hok, addAbsDiff _, (fseofRun_mem hok _).mpr
        ⟨r, hr, _, hrow0, rfl⟩, ?_⟩
      rw [addAbsDiff_id]
      exact hid
    · rintro ⟨rows, hok, row, hrow, hrid⟩
      rcases (fseofRun_mem hok row).mp hrow with ⟨r2, hr2, row0, hsome, rfl⟩
      have hs := fseofClassifyRow_spec hsome
      have hid2 : r2.id = i := by
        rw [← hs.2.1, ← addAbsDiff_id]
        exact hrid
      rw [← hid2]
      exact hs.1
  · rintro rows hok row hrow hrid
    rcases (fseofRun_mem hok row).mp hrow with ⟨r2, hr2, row0, hsome, rfl⟩
    have hs := fseofClassifyRow_spec hsome
    have hid2 : r2.id = i := by
      rw [← hs.2.1, ← addAbsDiff_id]
      exact hrid
    subst hid2
    refine ⟨hs.1, ?_, ?_⟩
    · rw [addAbsDiff_target]
      exact hs.2.2.2.2
    · show |row0.mean_flux_low - row0.mean_flux_high| = _
      rw [hs.2.2.1, hs.2.2.2.1]

/-- Claim C3 witness: the spec's own example — reaction `A` with mean
fluxes −2 and −5 passes the same-sign test and appears in the table. -/
theorem claim_C3_witness :
    ∃ rows, aFseofFix.run solverFix lowFlux highFlux false = Except.ok rows ∧
      ∃ row ∈ rows, row.reaction_id = "A" :=
  (claim_C3 aFseofFix solverFix lowFlux highFlux false "A" (by decide)).1.mp
    (by norm_num [lowFlux, highFlux])

/-- What `fvseofClassify` answered, unfolded: the surviving condition and
the label as a function of the first and last fluxes. -/
theorem fvseofClassify_spec {x y : ℚ} {tt : String}
    (h : fvseofClassify x y = some tt) :
    (¬x = 0 ∧ ¬y = 0) ∧
    tt = (if x * y ≥ 0 then (if |y| > |x| then "Up" else "Down")
      else "Reverse") := by
  unfold fvseofClassify at h
  by_cases h1 : ¬x = 0 ∧ ¬y = 0
  · rw [if_pos h1] at h
    refine ⟨h1, ?_⟩
    by_cases h2 : x * y ≥ 0
    · rw [if_pos h2] at h
      rw [if_pos h2]
      exact (Option.some.inj h).symm
    · rw [if_neg h2] at h
      rw [if_neg h2]
      exact (Option.some.inj h).symm
  · rw [if_neg h1] at h
    exact absurd h (by simp)

/-- A reaction with nonzero first and last fluxes always classifies. -/
theorem fvseofClassify_of_nonzero {x y : ℚ} (h1 : ¬x = 0 ∧ ¬y = 0) :
    fvseofClassify x y = some (if x * y ≥ 0 then
      (if |y| > |x| then "Up" else "Down") else "Reverse") := by
  rw [fvseofClassify, if_pos h1]
  by_cases h2 : x * y ≥ 0
  · rw [if_pos h2, if_pos h2]
  · rw [if_neg h2, if_neg h2]

/-- What a built FVSEOF row holds, in terms of that reaction's per-step
flux series. -/
theorem fvseofBuildRow_spec {b : FVSEOF} {solver : Solver} {ce : Bool}
    {steps : List ℚ} {agg : ℚ → FluxVec} {r : Rxn} {row0 : FvseofRow}
    (h : fvseofBuildRow b solver ce steps agg r = some row0) :
    (¬(steps.map (fun s => agg s r.id)).headI = 0 ∧
      ¬(steps.map (fun s => agg s r.id)).getLastI = 0) ∧
    row0.reaction_id = r.id ∧
    row0.target_type = (if (steps.map (fun s => agg s r.id)).headI *
        (steps.map (fun s => agg s r.id)).getLastI ≥ 0 then
        (if |(steps.map (fun s => agg s r.id)).getLastI| >
            |(steps.map (fun s => agg s r.id)).headI| then "Up" else "Down")
      else "Reverse") ∧
    row0.slope = lsSlope steps (steps.map (fun s => agg s r.id)) ∧
    row0.step_fluxes = steps.map (fun s => agg s r.id) := by
  simp only [fvseofBuildRow, Option.map_eq_some'] at h
  rcases h with ⟨tt, htt, rfl⟩
  have hc := fvseofClassify_spec htt
  exact ⟨hc.1, rfl, hc.2, rfl, rfl⟩

/-- A reaction whose first and last per-step fluxes are nonzero yields a
row. -/
theorem fvseofBuildRow_of_nonzero {b : FVSEOF} {solver : Solver} {ce : Bool}
    {steps : List ℚ} {agg : ℚ → FluxVec} {r : Rxn}
    (h1 : ¬(steps.map (fun s => agg s r.id)).headI = 0 ∧
      ¬(steps.map (fun s => agg s r.id)).getLastI = 0) :
    ∃ row0, fvseofBuildRow b solver ce steps agg r = some row0 := by
  simp only [fvseofBuildRow]
  rw [fvseofClassify_of_nonzero h1]
  exact ⟨_, rfl⟩

/-- Membership in a successful FVSEOF table: exactly the built rows of the
model's reactions. -/
theorem fvseofRun_mem {b : FVSEOF} {solver : Solver} {agg : ℚ → FluxVec}
    {k : ℕ} {ce : Bool} {rows : List FvseofRow}
    (h : b.run solver agg k ce = Except.ok rows) (row : FvseofRow) :
    row ∈ rows ↔ ∃ r ∈ b.model.reactions,
      fvseofBuildRow b solver ce
        (fvseofSteps k b.product_max_theoretical_yield) agg r = some row := by
  rw [fvseofRun_ok_rows h, (List.perm_insertionSort _ _).mem_iff]
  exact List.mem_filterMap

/-- When at least one reaction classifies, the FVSEOF table is built. -/
theorem fvseofRun_ok_of_some {b : FVSEOF} {solver : Solver}
    {agg : ℚ → FluxVec} {k : ℕ} {ce : Bool} {r : Rxn} {row0 : FvseofRow}
    (hr : r ∈ b.model.reactions)
    (hsome : fvseofBuildRow b solver ce
      (fvseofSteps k b.product_max_theoretical_yield) agg r = some row0) :
    ∃ rows, b.run solver agg k ce = Except.ok rows := by
  have hmem : row0 ∈ b.model.reactions.filterMap
      (fvseofBuildRow b solver ce
        (fvseofSteps k b.product_max_theoretical_yield) agg) :=
    List.mem_filterMap.mpr ⟨r, hr, hsome⟩
  have hne : ¬(b.model.reactions.filterMap
      (fvseofBuildRow b solver ce
        (fvseofSteps k b.product_max_theoretical_yield) agg)).isEmpty
        = true := by
    intro he
    rw [List.isEmpty_iff] at he
    rw [he] at hmem
    simp at hmem
  unfold FVSEOF.run
  rw [if_neg hne]
  exact ⟨_, rfl⟩

/-- Claim C4: in `FVSEOF.run` a reaction is excluded exactly when its
first- or last-level representative flux is exactly zero; a surviving
reaction is `"Up"` when the product of first and last fluxes is `≥ 0` and
`|last| > |first|`, `"Down"` when the product is `≥ 0` and `|last| ≤
|first|`, `"Reverse"` when the product is `< 0`; and its score is the
least-squares degree-1 slope of its per-level flux against the swept
lower-bound levels. -/
theorem claim_C4 (b : FVSEOF) (solver : Solver) (agg : ℚ → FluxVec) (k : ℕ)
    (ce : Bool) (i : String) (hk : 1 ≤ k) (hi : i ∈ b.model.reactionIds) :
    ((¬((fvseofSteps k b.product_max_theoretical_yield).map
          (fun s => agg s i)).headI = 0 ∧
      ¬((fvseofSteps k b.product_max_theoretical_yield).map
          (fun s => agg s i)).getLastI = 0) ↔
      ∃ rows, b.run solver agg k ce = Except.ok rows ∧
        ∃ row ∈ rows, row.reaction_id = i) ∧
    (∀ rows, b.run solver agg k ce = Except.ok rows →
      ∀ row ∈ rows, row.reaction_id = i →
        row.target_type =
          (if ((fvseofSteps k b.product_max_theoretical_yield).map
                (fun s => agg s i)).headI *
              ((fvseofSteps k b.product_max_theoretical_yield).map
                (fun s => agg s i)).getLastI ≥ 0 then
            (if |((fvseofSteps k b.product_max_theoretical_yield).map
                  (fun s => agg s i)).getLastI| >
                |((fvseofSteps k b.product_max_theoretical_yield).map
                  (fun s => agg s i)).headI| then "Up" else "Down")
          else "Reverse") ∧
        row.slope = lsSlope (fvseofSteps k b.product_max_theoretical_yield)
          ((fvseofSteps k b.product_max_theoretical_yield).map
            (fun s => agg s i)) ∧
        row.step_fluxes = (fvseofSteps k b.product_max_theoretical_yield).map
          (fun s => agg s i)) := by
  obtain ⟨r, hr, hid⟩ := List.mem_map.mp hi
  subst hid
  constructor
  · constructor
    · intro hnz
      rcases @fvseofBuildRow_of_nonzero b solver ce _ _ _ hnz
        with ⟨row0, hrow0⟩
      rcases fvseofRun_ok_of_some hr hrow0 with ⟨rows, hok⟩
      exact ⟨rows, hok, row0, (fvseofRun_mem hok _).mpr ⟨r, hr, hrow0⟩,
        (fvseofBuildRow_spec hrow0).2.1⟩
    · rintro ⟨rows, hok, row, hrow, hrid⟩
      rcases (fvseofRun_mem hok row).mp hrow with ⟨r2, hr2, hsome⟩
      have hs := fvseofBuildRow_spec hsome
      have hid2 : r2.id = r.id := by
        rw [← hs.2.1]
        exact hrid
      rw [← hid2]
      exact hs.1
  · rintro rows hok row hrow hrid
    rcases (fvseofRun_mem hok row).mp hrow with ⟨r2, hr2, hsome⟩
    have hs := fvseofBuildRow_spec hsome
    have hid2 : r2.id = r.id := by
      rw [← hs.2.1]
      exact hrid
    rw [hid2] at hs
    exact ⟨hs.2.2.1, hs.2.2.2.1, hs.2.2.2.2⟩

/-- Claim C4 witness: at the fixture run, reaction `A` survives (fluxes 3
then 2, both nonzero) and appears in the emitted table. -/
theorem claim_C4_witness :
    ∃ rows, aFvseofFix.run solverFix aggFix 2 false = Except.ok rows ∧
      ∃ row ∈ rows, row.reaction_id = "A" :=
  (claim_C4 aFvseofFix solverFix aggFix 2 false "A" (by omega)
    (by decide)).1.mp (by
      have h : fvseofSteps 2 aFvseofFix.product_max_theoretical_yield
          = [0, 1] := by
        rw [show aFvseofFix.product_max_theoretical_yield = (2 : ℚ) from rfl]
        norm_num [fvseofSteps, List.range_succ]
      rw [h]
      norm_num [aggFix, List.headI, List.getLastI])

/-- Concrete evaluation of `FVSEOF.run` with `n_steps = 1`: the single
swept level is `0`, reaction `A` has the one-point flux series `[3]`, and
the run happily returns a table whose score is the slope of a one-point
least-squares fit (`0` here), with no rejection of the degenerate input. -/
theorem fvseofOneStep_run_eval :
    aFvseofFix.run solverFix aggOne 1 false = .ok [rowOneStep] := by
  have eBA : ¬ ("BIOMASS" : String) = "A" := by decide
  have eB2A : ¬ ("B" : String) = "A" := by decide
  have hsteps : fvseofSteps 1 (2 : ℚ) = [0] := by
    norm_num [fvseofSteps, List.range_succ]
  have hbio : fvseofBuildRow aFvseofFix solverFix false [0] aggOne rxnBio
      = none := by
    norm_num [fvseofBuildRow, fvseofClassify, aggOne, rxnBio, List.getLastI,
      List.headI, eBA]
  have hA : fvseofBuildRow aFvseofFix solverFix false [0] aggOne rxnA
      = some rowOneStep := by
    norm_num [fvseofBuildRow, fvseofClassify, aggOne, rxnA, List.getLastI,
      List.headI, lsSlope, rowOneStep, List.zipWith]
  have hB : fvseofBuildRow aFvseofFix solverFix false [0] aggOne rxnB
      = none := by
    norm_num [fvseofBuildRow, fvseofClassify, aggOne, rxnB, List.getLastI,
      List.headI, eB2A]
  have hfm : mFix.reactions.filterMap
      (fvseofBuildRow aFvseofFix solverFix false [0] aggOne)
      = [rowOneStep] := by
    rw [show mFix.reactions = [rxnBio, rxnA, rxnB] from rfl]
    rw [List.filterMap_cons_none hbio, List.filterMap_cons_some hA,
      List.filterMap_cons_none hB, List.filterMap_nil]
  unfold FVSEOF.run
  rw [show aFvseofFix.product_max_theoretical_yield = 2 from rfl, hsteps,
    show aFvseofFix.model = mFix from rfl]
  simp only [hfm]
  rw [if_neg (by decide : ¬ ([rowOneStep].isEmpty = true))]
  exact congrArg Except.ok (by decide)

/-- Claim C8: `FVSEOF.run` with `n_steps = 1` is not rejected and not
specially handled — it sweeps the single level `0`, fits a degree-1
polynomial to the one-point series, and silently reports that slope (the
`ℚ` value of the degenerate normal equations, `0`) as the reaction's
score. -/
theorem claim_C8 :
    aFvseofFix.run solverFix aggOne 1 false = .ok [rowOneStep] ∧
    (fvseofSteps 1 aFvseofFix.product_max_theoretical_yield).length = 1 ∧
    rowOneStep.slope =
      lsSlope (fvseofSteps 1 aFvseofFix.product_max_theoretical_yield)
        ((fvseofSteps 1 aFvseofFix.product_max_theoretical_yield).map
          (fun s => aggOne s "A")) := by
  refine ⟨fvseofOneStep_run_eval, by norm_num [fvseofSteps], ?_⟩
  have hsteps : fvseofSteps 1 aFvseofFix.product_max_theoretical_yield
      = [0] := by
    rw [show aFvseofFix.product_max_theoretical_yield = (2 : ℚ) from rfl]
    norm_num [fvseofSteps, List.range_succ]
  rw [hsteps]
  norm_num [lsSlope, aggOne, rowOneStep, List.zipWith]

/-- Claim C10: on a run in which no reaction passes the same-sign test
(here: all mean fluxes zero), `FSEOF_FS.run` does not return an empty
ordered table — building and sorting the empty dataframe fails on the
missing `target_type` column. -/
theorem claim_C10 :
    aFseofFix.model.reactions.filterMap
      (fseofClassifyRow aFseofFix solverFix false zeroFlux zeroFlux) = [] ∧
    aFseofFix.run solverFix zeroFlux zeroFlux false =
      .error "KeyError: target_type" := by
  have hz : ∀ r : Rxn, fseofClassifyRow aFseofFix solverFix false zeroFlux
      zeroFlux r = none := by
    intro r
    norm_num [fseofClassifyRow, zeroFlux]
  have hfm : aFseofFix.model.reactions.filterMap
      (fseofClassifyRow aFseofFix solverFix false zeroFlux zeroFlux)
      = [] := by
    rw [show aFseofFix.model.reactions = [rxnBio, rxnA, rxnB] from rfl]
    rw [List.filterMap_cons_none (hz _), List.filterMap_cons_none (hz _),
      List.filterMap_cons_none (hz _), List.filterMap_nil]
  refine ⟨hfm, ?_⟩
  unfold FSEOF_FS.run
  simp only [hfm]
  rfl

/-- Sum of affine residuals `a·x + b − y` over paired lists. -/
theorem sum_zipWith_affine (a b : ℚ) (xs : List ℚ) : ∀ ys : List ℚ,
    xs.length = ys.length →
    (List.zipWith (fun x y => a * x + b - y) xs ys).sum
      = a * xs.sum + b * xs.length - ys.sum := by
  induction xs with
  | nil =>
    intro ys h
    rw [List.length_nil] at h
    rw [List.length_eq_zero.mp h.symm]
    simp
  | cons x xs ih =>
    intro ys h
    cases ys with
    | nil => simp at h
    | cons y ys2 =>
      have h2 : xs.length = ys2.length := by simpa using h
      simp only [List.zipWith_cons_cons, List.sum_cons, ih ys2 h2,
        List.length_cons, List.sum_cons]
      push_cast
      ring

/-- Sum of x-weighted affine residuals `(a·x + b − y)·x` over paired lists. -/
theorem sum_zipWith_affine_mul (a b : ℚ) (xs : List ℚ) : ∀ ys : List ℚ,
    xs.length = ys.length →
    (List.zipWith (fun x y => (a * x + b - y) * x) xs ys).sum
      = a * (xs.map (fun x => x * x)).sum + b * xs.sum
        - (List.zipWith (fun x y => x * y) xs ys).sum := by
  induction xs with
  | nil =>
    intro ys h
    rw [List.length_nil] at h
    rw [List.length_eq_zero.mp h.symm]
    simp
  | cons x xs ih =>
    intro ys h
    cases ys with
    | nil => simp at h
    | cons y ys2 =>
      have h2 : xs.length = ys2.length := by simpa using h
      simp only [List.zipWith_cons_cons, List.sum_cons, ih ys2 h2,
        List.map_cons, List.sum_cons]
      ring

/-- The value `lsSlope` computes really is the ordinary-least-squares slope:
for a nondegenerate system (at least formally, nonzero point count and
nonzero scatter denominator), the line with slope `lsSlope xs ys` and the
matching OLS intercept `(Σy − slope·Σx)/n` makes both residual sums — the
gradient of the squared-error objective in intercept and slope — vanish,
which are exactly the normal equations `np.polyfit(xs, ys, 1)` solves. -/
theorem lsSlope_normal_equations (xs ys : List ℚ)
    (hlen : xs.length = ys.length) (hn : (xs.length : ℚ) ≠ 0)
    (hD : (xs.length : ℚ) * (xs.map (fun x => x * x)).sum
        - xs.sum * xs.sum ≠ 0) :
    (List.zipWith (fun x y => lsSlope xs ys * x +
        (ys.sum - lsSlope xs ys * xs.sum) / xs.length - y) xs ys).sum = 0 ∧
    (List.zipWith (fun x y => (lsSlope xs ys * x +
        (ys.sum - lsSlope xs ys * xs.sum) / xs.length - y) * x) xs ys).sum
      = 0 := by
  constructor
  · rw [sum_zipWith_affine _ _ _ _ hlen]
    field_simp
  · rw [sum_zipWith_affine_mul _ _ _ _ hlen]
    rw [lsSlope]
    field_simp
    ring
